import Mathlib

/-!
Verification development for the IMGBE emulator core.

Shallow embedding of `src/program.cpp` and of the `MemoryBank` memory-region
abstraction declared in `src/emu/memorybank.hpp`.

The `MemoryBank` member function bodies and the `EmuSys` controller
(`emu/emusys.hpp`) are not present among the available sources; those
operations are modelled from the specification (each such definition's doc
comment starts with "Modelled from the spec:").  Everything else (the main
loop, event handling, keyboard handling, key/value parsing, ROM loading,
frame pacing) is translated directly from `program.cpp`.

Bytes are modelled as `Nat` values reduced modulo 256 at the `uint8_t`
boundary; addresses (`size_t`) as `Nat`; the `double` frame-timing
arithmetic as exact rationals `ℚ`; a thrown C++ exception as the `.error`
branch of `Except`.
-/

/-- Modelled from the spec: `MemoryBank` (AddressRegion) data, missing from
the sources as `memorybank.cpp`; fields follow the declaration in
`src/emu/memorybank.hpp`: backing byte storage, the two lock flags and the
inclusive address bounds. -/
structure MemoryBank where
  data : List Nat
  readLocked : Bool
  writeLocked : Bool
  startAddress : Nat
  endAddress : Nat
  deriving Repr, DecidableEq

namespace MemoryBank

/-- Modelled from the spec: the constructor, missing from the sources as
`memorybank.cpp`.  "fails with an invalid-range error when
`startAddress > endAddress`. Allocates zero-initialized storage of exact
region size." -/
def construct (startAddress endAddress : Nat)
    (read_locked write_locked : Bool) : Except String MemoryBank :=
  if startAddress > endAddress then
    Except.error "invalid_argument"
  else
    Except.ok
      { data := List.replicate (endAddress - startAddress + 1) 0
        readLocked := read_locked
        writeLocked := write_locked
        startAddress := startAddress
        endAddress := endAddress }

/-- Modelled from the spec: `readByte`, missing from the sources as
`memorybank.cpp`.  "requires `startAddress ≤ address ≤ endAddress`; fails
with an out-of-range error otherwise. Returns `0x00` without touching
storage when `readLocked` is true. Returns the stored byte otherwise." -/
def readByte (b : MemoryBank) (address : Nat) : Except String Nat :=
  if address < b.startAddress ∨ address > b.endAddress then
    Except.error "out_of_range"
  else if b.readLocked then
    Except.ok 0x00
  else
    Except.ok (b.data.getD (address - b.startAddress) 0)

/-- Modelled from the spec: `writeByte`, missing from the sources as
`memorybank.cpp`.  "requires address in range, else out-of-range error.
Silently discards the write when `writeLocked` is true (no error).
Otherwise stores `value`."  The `uint8_t` parameter is modelled by reducing
the stored value modulo 256. -/
def writeByte (b : MemoryBank) (address : Nat) (value : Nat) :
    Except String MemoryBank :=
  if address < b.startAddress ∨ address > b.endAddress then
    Except.error "out_of_range"
  else if b.writeLocked then
    Except.ok b
  else
    Except.ok { b with data := b.data.set (address - b.startAddress) (value % 256) }

/-- Accessor `isReadLocked`. -/
def isReadLocked (b : MemoryBank) : Bool := b.readLocked

/-- Accessor `isWriteLocked`. -/
def isWriteLocked (b : MemoryBank) : Bool := b.writeLocked

/-- Mutator `setReadLocked`. -/
def setReadLocked (b : MemoryBank) (value : Bool) : MemoryBank :=
  { b with readLocked := value }

/-- Mutator `setWriteLocked`. -/
def setWriteLocked (b : MemoryBank) (value : Bool) : MemoryBank :=
  { b with writeLocked := value }

/-- Accessor `getStartAddress`. -/
def getStartAddress (b : MemoryBank) : Nat := b.startAddress

/-- Accessor `getEndAddress`. -/
def getEndAddress (b : MemoryBank) : Nat := b.endAddress

end MemoryBank

/-- Embedding of `std::string::find_first_of(char)` from the uses in
`program.cpp` (`getKey` / `getValue`): index of the first occurrence of the
character, `none` for `std::string::npos`. -/
def find_first_of : List Char → Char → Option Nat
  | [], _ => none
  | c :: cs, d => if c = d then some 0 else (find_first_of cs d).map (· + 1)

/-- Embedding of `getKey` (program.cpp lines 201-217): the prefix before the
first occurrence of the delimiter via `substr(0, delim_index)`; throws
`std::invalid_argument` (the `.error` branch) when the delimiter is not
found. -/
def getKey (pair : List Char) (delimiter : Char) :
    Except String (List Char) :=
  match find_first_of pair delimiter with
  | none => Except.error "invalid_argument"
  | some delim_index => Except.ok (pair.take delim_index)

/-- Embedding of `getValue` (program.cpp lines 227-243): the suffix after the
first occurrence of the delimiter via `substr(delim_index + 1, length)`;
throws `std::invalid_argument` (the `.error` branch) when the delimiter is
not found. -/
def getValue (pair : List Char) (delimiter : Char) :
    Except String (List Char) :=
  match find_first_of pair delimiter with
  | none => Except.error "invalid_argument"
  | some delim_index => Except.ok (pair.drop (delim_index + 1))

/-- Embedding of the frame-pacing argument of `SDL_Delay` in `runMainLoop`
(program.cpp lines 59-66), with the `double` arithmetic idealized over `ℚ`:
`seconds_elapsed < 1/frameRate` selects
`(uint32_t) floor((1000 / frameRate) - seconds_elapsed)`, else `0`.
The result is the delay passed to `SDL_Delay`, in milliseconds. -/
def delayMs (frameRate : ℚ) (seconds_elapsed : ℚ) : Nat :=
  if seconds_elapsed < 1 / frameRate then
    (⌊1000 / frameRate - seconds_elapsed⌋).toNat
  else
    0

/-- A ROM file as seen through the `std::filesystem::path` handed to
`loadEmuSystem`: whether the path exists on disk, whether the cartridge
parses, and whether executing the loaded program faults. -/
structure Rom where
  onDisk : Bool
  valid : Bool
  faulty : Bool
  deriving Repr, DecidableEq

/-- Modelled from the spec: the `EmuSys` controller state
(`emu/emusys.hpp` is not among the sources).  `running`/`paused` flags from
§3, whether a cartridge is attached, whether the loaded program faults on
execution, and instrumentation counters of completed frames and steps. -/
structure EmuSys where
  running : Bool
  paused : Bool
  romLoaded : Bool
  faulty : Bool
  frames : Nat
  steps : Nat
  deriving Repr, DecidableEq

namespace EmuSys

/-- Modelled from the spec: `new EmuSys()` yields an unloaded, stopped
controller. -/
def init : EmuSys :=
  { running := false, paused := false, romLoaded := false
    faulty := false, frames := 0, steps := 0 }

/-- Modelled from the spec: `stop()` transitions to `Stopped`; "always safe
to call, including when already stopped". -/
def stop (s : EmuSys) : EmuSys :=
  { s with running := false, paused := false }

/-- Modelled from the spec: `start()` transitions `Stopped → Running`. -/
def start (s : EmuSys) : EmuSys :=
  { s with running := true }

/-- Modelled from the spec: `loadROM(path)` "stops any current run,
parses/attaches the Cartridge collaborator, resets CPU/PPU/memory-mapped
state. Fails (reported, not fatal) if the path does not exist or the
cartridge fails to parse; on failure the Controller remains in `Stopped`
with any previous ROM unloaded."  The second component is `some message`
when the call throws. -/
def loadROM (s : EmuSys) (rom : Rom) : EmuSys × Option String :=
  if rom.onDisk && rom.valid then
    ({ s with running := false, paused := false, romLoaded := true
              faulty := rom.faulty, frames := 0, steps := 0 }, none)
  else
    ({ s with running := false, paused := false, romLoaded := false },
     some "ROM load failed")

/-- Modelled from the spec: `runFrame()` "advances CPU/PPU state by exactly
one video frame's worth of cycles. Fails by propagating the first
unrecoverable execution error ... without partially committing an
inconsistent half-frame."  A fault propagates (`some message`) and the
frame does not complete. -/
def runFrame (s : EmuSys) : EmuSys × Option String :=
  if s.faulty then
    (s, some "execution fault")
  else
    ({ s with frames := s.frames + 1 }, none)

/-- Modelled from the spec: `step(singleInstruction)` "executes exactly one
CPU instruction worth of state advancement, no more. Fails on illegal
opcode identically to `runFrame`." -/
def step (s : EmuSys) (_singleInstruction : Bool) : EmuSys × Option String :=
  if s.faulty then
    (s, some "execution fault")
  else
    ({ s with steps := s.steps + 1 }, none)

/-- Modelled from the spec: `pause()` sets `paused`; "Pausing never alters
memory or register state". -/
def pause (s : EmuSys) : EmuSys := { s with paused := true }

/-- Modelled from the spec: `resume()` clears `paused`; "resuming never
resets state". -/
def resume (s : EmuSys) : EmuSys := { s with paused := false }

/-- Modelled from the spec: `togglePause()` is a "convenience composition of
pause/resume based on current state". -/
def togglePause (s : EmuSys) : EmuSys := { s with paused := !s.paused }

/-- Modelled from the spec: `isRunning()` pure accessor. -/
def isRunning (s : EmuSys) : Bool := s.running

/-- Modelled from the spec: `isPaused()` pure accessor. -/
def isPaused (s : EmuSys) : Bool := s.paused

end EmuSys

/-- SDL scancodes distinguished by `handleKeyboard` (program.cpp lines
130-191). -/
inductive Key where
  | escape
  | f3
  | f5
  | f9
  | otherKey
  deriving Repr, DecidableEq

/-- SDL events distinguished by `handleEvents` (program.cpp lines 94-122):
`SDL_QUIT`, `SDL_DROPFILE` (carrying the dropped path's ROM), `SDL_KEYDOWN`
and anything else. -/
inductive Event where
  | quit
  | dropFile (rom : Rom)
  | keyDown (key : Key)
  | other
  deriving Repr, DecidableEq

/-- Program state of `program.cpp`: the file-scope globals `exitRequested`
and `emuSystem` (nullptr modelled as `none`), the pending SDL event queue,
the log sink, and a ghost counter `framesRun` incremented at every call to
`emuSystem->runFrame()` (used to state claims about frame advancement). -/
structure ProgState where
  exitRequested : Bool
  emuSystem : Option EmuSys
  queue : List Event
  log : List String
  framesRun : Nat
  deriving Repr, DecidableEq

/-- The global `frameRate = 60` of program.cpp line 20. -/
def frameRate : ℚ := 60

/-- Embedding of `requestExit` (program.cpp lines 83-87): logs and sets the
process-wide `exitRequested` flag. -/
def requestExit (s : ProgState) : ProgState :=
  { s with log := s.log ++ ["Main loop exit requested..."]
           exitRequested := true }

/-- Embedding of `createEmuSystem` (program.cpp lines 250-253): creates the
`emuSystem` object if it does not already exist. -/
def createEmuSystem (s : ProgState) : ProgState :=
  match s.emuSystem with
  | none => { s with emuSystem := some EmuSys.init }
  | some _ => s

/-- Embedding of `loadEmuSystem` (program.cpp lines 261-286).  A missing
file is logged but the control flow falls through to the try block; the
try block runs `createEmuSystem(); emuSystem->stop(); emuSystem->loadROM();
emuSystem->start()`, and the catch logs any exception, leaving `emuSystem`
in the state it had reached when the exception was thrown. -/
def loadEmuSystem (s : ProgState) (rom : Rom) : ProgState :=
  let s1 :=
    if !rom.onDisk then
      { s with log := s.log ++ ["Couldnt load file."] }
    else
      s
  let s2 := createEmuSystem s1
  match s2.emuSystem with
  | none => s2
  | some sys =>
    let sys1 := sys.stop
    match sys1.loadROM rom with
    | (sys2, some err) =>
      { s2 with emuSystem := some sys2
                log := s2.log ++ ["Couldnt load file. Error: " ++ err] }
    | (sys2, none) =>
      { s2 with emuSystem := some sys2.start }

/-- Embedding of `handleKeyboard` (program.cpp lines 130-191): Escape
toggles pause; F3 steps one instruction while paused (exceptions logged);
F5 does `resume(); runFrame(); pause()` in one try block while paused
(exceptions logged, so a throw in `runFrame` skips the `pause()` call);
F9 resumes while paused. -/
def handleKeyboard (s : ProgState) (key : Key) : ProgState :=
  match key with
  | Key.escape =>
    match s.emuSystem with
    | none => s
    | some sys => { s with emuSystem := some sys.togglePause }
  | Key.f3 =>
    match s.emuSystem with
    | none => s
    | some sys =>
      if sys.isPaused then
        match sys.step true with
        | (sys1, some err) =>
          { s with emuSystem := some sys1, log := s.log ++ [err] }
        | (sys1, none) =>
          { s with emuSystem := some sys1 }
      else s
  | Key.f5 =>
    match s.emuSystem with
    | none => s
    | some sys =>
      if sys.isPaused then
        let sys1 := sys.resume
        match sys1.runFrame with
        | (sys2, some err) =>
          { s with emuSystem := some sys2
                   log := s.log ++ [err]
                   framesRun := s.framesRun + 1 }
        | (sys2, none) =>
          { s with emuSystem := some sys2.pause
                   framesRun := s.framesRun + 1 }
      else s
  | Key.f9 =>
    match s.emuSystem with
    | none => s
    | some sys =>
      if sys.isPaused then
        { s with emuSystem := some sys.resume }
      else s
  | Key.otherKey => s

/-- Dispatch of one polled SDL event inside the `while(SDL_PollEvent(...))`
switch of `handleEvents` (program.cpp lines 98-121). -/
def processEvent (s : ProgState) (event : Event) : ProgState :=
  match event with
  | Event.quit => requestExit s
  | Event.dropFile rom => loadEmuSystem s rom
  | Event.keyDown key => handleKeyboard s key
  | Event.other => s

/-- Embedding of `handleEvents` (program.cpp lines 94-122): polls and
handles every event in the queue, draining it completely. -/
def handleEvents (s : ProgState) : ProgState :=
  s.queue.foldl processEvent { s with queue := [] }

/-- One iteration of the `while(!exitRequested)` body of `runMainLoop`
(program.cpp lines 34-67): handle events, then advance one frame if a
system exists and is running (exceptions logged); rendering and the pacing
sleep do not change this state. -/
def loopIteration (s : ProgState) : ProgState :=
  let s1 := handleEvents s
  match s1.emuSystem with
  | none => s1
  | some sys =>
    if sys.isRunning then
      match sys.runFrame with
      | (sys1, some err) =>
        { s1 with emuSystem := some sys1
                  log := s1.log ++ [err]
                  framesRun := s1.framesRun + 1 }
      | (sys1, none) =>
        { s1 with emuSystem := some sys1
                  framesRun := s1.framesRun + 1 }
    else s1

/-- The `while(!exitRequested)` loop of `runMainLoop`, with explicit fuel
bounding the number of iterations. -/
def mainLoopGo : Nat → ProgState → ProgState
  | 0, s => s
  | fuel + 1, s =>
    if s.exitRequested then s else mainLoopGo fuel (loopIteration s)

/-- The teardown after the loop (program.cpp lines 69-73): if a system is
loaded, `dumpSystem()` (diagnostics to the log) and `delete emuSystem`. -/
def loopTeardown (s : ProgState) : ProgState :=
  match s.emuSystem with
  | none => s
  | some _ =>
    { s with emuSystem := none, log := s.log ++ ["dumpSystem"] }

/-- Embedding of `runMainLoop` (program.cpp lines 30-76): the fueled while
loop followed by the teardown. -/
def runMainLoop (fuel : Nat) (s : ProgState) : ProgState :=
  loopTeardown (mainLoopGo fuel s)

/-- Mirrors `emuSystem != nullptr && emuSystem->isRunning()`. -/
def emuRunning (s : ProgState) : Bool :=
  match s.emuSystem with
  | none => false
  | some sys => sys.isRunning

/-- Mirrors `emuSystem != nullptr && emuSystem->isPaused()`. -/
def emuPaused (s : ProgState) : Bool :=
  match s.emuSystem with
  | none => false
  | some sys => sys.isPaused

/-- Mirrors "a cartridge is attached": `emuSystem != nullptr` and a loaded
ROM. -/
def emuRomLoaded (s : ProgState) : Bool :=
  match s.emuSystem with
  | none => false
  | some sys => sys.romLoaded

/-- Concrete write-locked bank used to instantiate the write-lock theorem. -/
def bankWriteLocked : MemoryBank :=
  { data := [1, 2, 3], readLocked := false, writeLocked := true
    startAddress := 10, endAddress := 12 }

/-- C6: with `writeLocked` true, `writeByte` on an in-range address raises no
error and has no effect on storage (`Except.ok` of the unchanged bank), and
a subsequent `readByte` with the read lock cleared returns the pre-write
stored byte. -/
theorem writeByte_write_locked_discarded (b : MemoryBank) (a v : Nat)
    (h1 : b.writeLocked = true)
    (h2 : b.startAddress ≤ a) (h3 : a ≤ b.endAddress) :
    b.writeByte a v = Except.ok b ∧
    (b.setReadLocked false).readByte a =
      Except.ok (b.data.getD (a - b.startAddress) 0) := by
  have hin : ¬(a < b.startAddress ∨ a > b.endAddress) := by omega
  constructor
  · simp [MemoryBank.writeByte, hin, h1]
  · simp [MemoryBank.readByte, MemoryBank.setReadLocked, hin]

/-- Witness for C6 at a concrete write-locked bank. -/
theorem writeByte_write_locked_discarded_witness :
    bankWriteLocked.writeByte 11 200 = Except.ok bankWriteLocked ∧
    (bankWriteLocked.setReadLocked false).readByte 11 =
      Except.ok (bankWriteLocked.data.getD (11 - bankWriteLocked.startAddress) 0) :=
  writeByte_write_locked_discarded bankWriteLocked 11 200 rfl
    (by decide) (by decide)

/-- Concrete read-locked bank used to instantiate the read-lock theorem. -/
def bankReadLocked : MemoryBank :=
  { data := [7, 8, 9], readLocked := true, writeLocked := false
    startAddress := 10, endAddress := 12 }

/-- C7: with `readLocked` true, `readByte` on an in-range address returns
`0x00` with no error; quantifying over every bank state covers all prior
writes, and `readByte` is a pure function of the bank, so storage is
untouched. -/
theorem readByte_read_locked_zero (b : MemoryBank) (a : Nat)
    (h1 : b.readLocked = true)
    (h2 : b.startAddress ≤ a) (h3 : a ≤ b.endAddress) :
    b.readByte a = Except.ok 0x00 := by
  have hin : ¬(a < b.startAddress ∨ a > b.endAddress) := by omega
  simp [MemoryBank.readByte, hin, h1]

/-- Witness for C7 at a concrete read-locked bank. -/
theorem readByte_read_locked_zero_witness :
    bankReadLocked.readByte 12 = Except.ok 0x00 :=
  readByte_read_locked_zero bankReadLocked 12 rfl (by decide) (by decide)

/-- Concrete unlocked bank used to instantiate the round-trip theorem. -/
def bankUnlocked : MemoryBank :=
  { data := [0, 0, 0], readLocked := false, writeLocked := false
    startAddress := 10, endAddress := 12 }

/-- C8: with both locks false, for every in-range address and byte value,
`writeByte` then `readByte` at the same address returns the written value.
The hypothesis on `data.length` is the storage-size invariant established
by the constructor. -/
theorem writeByte_readByte_roundtrip (b : MemoryBank) (a v : Nat)
    (hr : b.readLocked = false) (hw : b.writeLocked = false)
    (h2 : b.startAddress ≤ a) (h3 : a ≤ b.endAddress)
    (hlen : b.data.length = b.endAddress - b.startAddress + 1)
    (hv : v < 256) :
    (b.writeByte a v).bind (fun b2 => b2.readByte a) = Except.ok v := by
  have hin : ¬(a < b.startAddress ∨ a > b.endAddress) := by omega
  have hidx : a - b.startAddress < b.data.length := by omega
  simp [MemoryBank.writeByte, MemoryBank.readByte, Except.bind, hin, hr, hw]
  rw [List.getElem?_eq_getElem (by simpa using hidx)]
  simp [List.getElem_set_self, Nat.mod_eq_of_lt hv]

/-- Witness for C8 at a concrete unlocked bank, writing `0xAB`. -/
theorem writeByte_readByte_roundtrip_witness :
    (bankUnlocked.writeByte 11 0xAB).bind (fun b2 => b2.readByte 11) =
      Except.ok 0xAB :=
  writeByte_readByte_roundtrip bankUnlocked 11 0xAB rfl rfl
    (by decide) (by decide) (by decide) (by decide)

/-- C9: region construction succeeds exactly when
`startAddress ≤ endAddress`; on success the accessors return the given
bounds and the backing storage is zero-initialized of length
`endAddress - startAddress + 1`; otherwise construction fails with the
invalid-range (invalid-argument) error. -/
theorem construct_range_spec (s e : Nat) (rl wl : Bool) :
    (s ≤ e →
      ∃ b, MemoryBank.construct s e rl wl = Except.ok b ∧
        b.getStartAddress = s ∧ b.getEndAddress = e ∧
        b.data = List.replicate (e - s + 1) 0 ∧
        b.data.length = e - s + 1) ∧
    (s > e →
      MemoryBank.construct s e rl wl = Except.error "invalid_argument") := by
  constructor
  · intro h
    have hc : MemoryBank.construct s e rl wl = Except.ok
        { data := List.replicate (e - s + 1) 0, readLocked := rl
          writeLocked := wl, startAddress := s, endAddress := e } := by
      simp [MemoryBank.construct, Nat.not_lt.mpr h]
    exact ⟨_, hc, rfl, rfl, rfl, by simp⟩
  · intro h
    simp [MemoryBank.construct, h]

/-- Witness for C9 on the spec's `[0x8000, 0x9FFF]` region and on an
inverted range. -/
theorem construct_range_spec_witness :
    (∃ b, MemoryBank.construct 0x8000 0x9FFF false false = Except.ok b ∧
        b.getStartAddress = 0x8000 ∧ b.getEndAddress = 0x9FFF ∧
        b.data = List.replicate (0x9FFF - 0x8000 + 1) 0 ∧
        b.data.length = 0x9FFF - 0x8000 + 1) ∧
    MemoryBank.construct 5 4 false false = Except.error "invalid_argument" :=
  ⟨(construct_range_spec 0x8000 0x9FFF false false).1 (by decide),
   (construct_range_spec 5 4 false false).2 (by decide)⟩

/-- When the delimiter does not occur in the string, `find_first_of`
returns `none` (npos). -/
theorem find_first_of_eq_none (s : List Char) (d : Char) (h : d ∉ s) :
    find_first_of s d = none := by
  induction s with
  | nil => rfl
  | cons c cs ih =>
    have hc : ¬(c = d) := fun hcd => h (hcd ▸ List.mem_cons_self c cs)
    have hcs : d ∉ cs := fun hm => h (List.mem_cons_of_mem c hm)
    simp [find_first_of, hc, ih hcs]

/-- When the delimiter occurs in the string, `find_first_of` returns some
index. -/
theorem find_first_of_eq_some (s : List Char) (d : Char) (h : d ∈ s) :
    ∃ i, find_first_of s d = some i := by
  induction s with
  | nil => cases h
  | cons c cs ih =>
    by_cases hc : c = d
    · exact ⟨0, by simp [find_first_of, hc]⟩
    · have hcs : d ∈ cs := by
        rcases List.mem_cons.mp h with h1 | h1
        · exact absurd h1.symm hc
        · exact h1
      obtain ⟨i, hi⟩ := ih hcs
      exact ⟨i + 1, by simp [find_first_of, hc, hi]⟩

/-- The index found by `find_first_of` splits the string around the first
occurrence of the delimiter: the prefix before it is delimiter-free and
prefix, delimiter and suffix reassemble the string. -/
theorem find_first_of_split (s : List Char) (d : Char) (i : Nat)
    (h : find_first_of s d = some i) :
    s.take i ++ d :: s.drop (i + 1) = s ∧ d ∉ s.take i := by
  induction s generalizing i with
  | nil => simp [find_first_of] at h
  | cons c cs ih =>
    by_cases hc : c = d
    · have h0 : i = 0 := by
        simp [find_first_of, hc] at h
        omega
      subst h0
      simp [hc]
    · simp only [find_first_of, if_neg hc, Option.map_eq_some'] at h
      obtain ⟨j, hj, hji⟩ := h
      subst hji
      obtain ⟨ihs, ihm⟩ := ih j hj
      constructor
      · simpa [List.take_cons] using ihs
      · intro hm
        rcases List.mem_cons.mp (by simpa [List.take_cons] using hm) with h1 | h1
        · exact hc h1.symm
        · exact ihm h1

/-- C10: for every string containing the delimiter, `getKey` returns the
prefix before the first occurrence (delimiter-free) and `getValue` the
suffix after it, so key, delimiter and value reassemble the string; for
every string not containing the delimiter, both throw invalid-argument. -/
theorem getKey_getValue_split (pair : List Char) (d : Char) :
    (d ∈ pair →
      ∃ k v, getKey pair d = Except.ok k ∧ getValue pair d = Except.ok v ∧
        k ++ d :: v = pair ∧ d ∉ k) ∧
    (d ∉ pair →
      getKey pair d = Except.error "invalid_argument" ∧
      getValue pair d = Except.error "invalid_argument") := by
  constructor
  · intro h
    obtain ⟨i, hi⟩ := find_first_of_eq_some pair d h
    obtain ⟨hs, hm⟩ := find_first_of_split pair d i hi
    exact ⟨pair.take i, pair.drop (i + 1),
      by simp [getKey, hi], by simp [getValue, hi], hs, hm⟩
  · intro h
    have hn := find_first_of_eq_none pair d h
    exact ⟨by simp [getKey, hn], by simp [getValue, hn]⟩

/-- Witness for C10 on the concrete pair `"a=b"` with delimiter `'='`. -/
theorem getKey_getValue_split_witness :
    ∃ k v, getKey ['a', '=', 'b'] '=' = Except.ok k ∧
      getValue ['a', '=', 'b'] '=' = Except.ok v ∧
      k ++ '=' :: v = ['a', '=', 'b'] ∧ '=' ∉ k :=
  (getKey_getValue_split ['a', '=', 'b'] '=').1 (by decide)

/-- C1: frame-pacing units bug.  With target rate 60 and a measured work
time of 1/100 s (10 ms), the code's `SDL_Delay` argument is 16 ms, because
`floor((1000 / frameRate) - seconds_elapsed)` subtracts a value in seconds
from a budget in milliseconds; the claimed sleep `1/R - t` is
`1/60 - 1/100` s, i.e. under 7 ms in milliseconds.  The code therefore does
not sleep `max(0, 1/R - t)` in consistent units. -/
theorem delayMs_units_divergence :
    delayMs 60 (1 / 100) = 16 ∧ (1000 : ℚ) * (1 / 60 - 1 / 100) < 7 := by
  constructor
  · norm_num [delayMs]
    decide
  · norm_num

/-- Initial state for the C2 counterexample: a running system and a pending
`SDL_QUIT` event. -/
def quitWhileRunning : ProgState :=
  { exitRequested := false
    emuSystem := some { running := true, paused := false, romLoaded := true
                        faulty := false, frames := 0, steps := 0 }
    queue := [Event.quit]
    log := []
    framesRun := 0 }

/-- C2 counterexample: processing the quit event sets the exit-requested
flag with zero `runFrame` calls performed, yet the completed main loop has
performed one `runFrame` call — the frame advancement of the very iteration
in which the flag became true, refuting "no subsequent call to `runFrame`
once the flag becomes true". -/
theorem exit_flag_frame_counterexample :
    (handleEvents quitWhileRunning).exitRequested = true ∧
    (handleEvents quitWhileRunning).framesRun = 0 ∧
    (runMainLoop 3 quitWhileRunning).framesRun = 1 := by
  decide

/-- The event dispatch never touches the pending queue, so `handleEvents`
leaves it drained. -/
theorem processEvent_queue (s : ProgState) (e : Event) :
    (processEvent s e).queue = s.queue := by
  cases e with
  | quit => rfl
  | dropFile rom =>
    show (loadEmuSystem s rom).queue = s.queue
    unfold loadEmuSystem createEmuSystem
    cases hd : rom.onDisk <;> cases hv : rom.valid <;>
      cases hs : s.emuSystem <;>
      simp [hd, hv, hs, EmuSys.loadROM]
  | keyDown key =>
    cases key with
    | escape =>
      simp only [processEvent, handleKeyboard]
      cases s.emuSystem <;> rfl
    | f3 =>
      simp only [processEvent, handleKeyboard]
      cases hs : s.emuSystem with
      | none => rfl
      | some sys =>
        by_cases hp : sys.isPaused <;>
          simp [hp, EmuSys.step] <;> split <;> rfl
    | f5 =>
      simp only [processEvent, handleKeyboard]
      cases hs : s.emuSystem with
      | none => rfl
      | some sys =>
        by_cases hp : sys.isPaused <;>
          simp [hp, EmuSys.runFrame] <;> split <;> rfl
    | f9 =>
      simp only [processEvent, handleKeyboard]
      cases hs : s.emuSystem with
      | none => rfl
      | some sys => by_cases hp : sys.isPaused <;> simp [hp]
    | otherKey => rfl
  | other => rfl

/-- Folding the dispatch over any event list preserves an empty queue. -/
theorem foldl_processEvent_queue (events : List Event) (s : ProgState) :
    (events.foldl processEvent s).queue = s.queue := by
  induction events generalizing s with
  | nil => rfl
  | cons e es ih => rw [List.foldl_cons, ih, processEvent_queue]

/-- C2 amended: the exit-requested flag is checked only at the top of each
iteration — once it is true at an iteration boundary the loop performs no
further `runFrame` call (the ghost counter is unchanged by the remaining
run, teardown included), and every `handleEvents` call drains the entire
pending event queue. -/
theorem exit_flag_checked_at_top (fuel : Nat) (s : ProgState)
    (h : s.exitRequested = true) :
    (runMainLoop fuel s).framesRun = s.framesRun ∧
    (handleEvents s).queue = [] := by
  have hgo : mainLoopGo fuel s = s := by
    cases fuel with
    | zero => rfl
    | succ n => simp [mainLoopGo, h]
  constructor
  · rw [runMainLoop, hgo, loopTeardown]
    cases s.emuSystem <;> rfl
  · rw [handleEvents, foldl_processEvent_queue]

/-- A state with the exit flag already set, used to instantiate the amended
C2 theorem. -/
def exitedState : ProgState :=
  { exitRequested := true
    emuSystem := some { running := true, paused := false, romLoaded := true
                        faulty := false, frames := 2, steps := 0 }
    queue := [Event.other, Event.quit]
    log := []
    framesRun := 2 }

/-- Witness for the amended C2 theorem at a concrete exited state. -/
theorem exit_flag_checked_at_top_witness :
    (runMainLoop 5 exitedState).framesRun = exitedState.framesRun ∧
    (handleEvents exitedState).queue = [] :=
  exit_flag_checked_at_top 5 exitedState rfl

/-- Paused system whose frame advancement faults, for the C3
counterexample. -/
def f5FaultState : ProgState :=
  { exitRequested := false
    emuSystem := some { running := true, paused := true, romLoaded := true
                        faulty := true, frames := 0, steps := 0 }
    queue := []
    log := []
    framesRun := 0 }

/-- C3 counterexample: on a paused system whose frame advancement raises
an execution fault, the F5 step-one-frame command (`resume(); runFrame();
pause()` in one try block) leaves the system unpaused — the exception
skips the `pause()` call — refuting "the system is paused again when the
command completes, including when the frame advancement raises an
execution fault". -/
theorem step_frame_fault_counterexample :
    emuPaused f5FaultState = true ∧
    emuPaused (handleKeyboard f5FaultState Key.f5) = false := by
  decide

/-- C3 amended: for every paused system, the F5 step-one-frame command
re-pauses the system when the frame advancement does not fault (and,
the loop being single-threaded, no other input event runs between the
three calls); when the frame advancement faults, the caught exception
skips `pause()` and the system is left unpaused. -/
theorem step_frame_repause (ps : ProgState) (sys : EmuSys)
    (hsys : ps.emuSystem = some sys) (hp : sys.paused = true) :
    (sys.faulty = false → emuPaused (handleKeyboard ps Key.f5) = true) ∧
    (sys.faulty = true → emuPaused (handleKeyboard ps Key.f5) = false) := by
  constructor <;> intro hf <;>
    simp [handleKeyboard, hsys, EmuSys.isPaused, hp, EmuSys.resume,
      EmuSys.runFrame, hf, EmuSys.pause, emuPaused]

/-- Paused system whose frame advancement succeeds, instantiating the
amended C3 theorem. -/
def f5OkState : ProgState :=
  { exitRequested := false
    emuSystem := some { running := true, paused := true, romLoaded := true
                        faulty := false, frames := 3, steps := 0 }
    queue := []
    log := []
    framesRun := 0 }

/-- Witness for the amended C3 theorem on a non-faulting paused system. -/
theorem step_frame_repause_witness :
    emuPaused (handleKeyboard f5OkState Key.f5) = true :=
  (step_frame_repause f5OkState
    { running := true, paused := true, romLoaded := true
      faulty := false, frames := 3, steps := 0 } rfl rfl).1 rfl

/-- Running system onto which a nonexistent ROM path is dropped, for C4. -/
def runningBeforeDrop : ProgState :=
  { exitRequested := false
    emuSystem := some { running := true, paused := false, romLoaded := true
                        faulty := false, frames := 5, steps := 0 }
    queue := []
    log := []
    framesRun := 5 }

/-- The dropped path that does not exist on disk, for C4. -/
def missingRom : Rom := { onDisk := false, valid := true, faulty := false }

/-- C4: evaluation at the failing input.  A file-drop of a nonexistent path
while a system is running fails its existence check before any teardown,
yet `loadEmuSystem` only logs and falls through (no early return), calls
`stop()` on the old system and attempts `loadROM` anyway: the previously
running system ends up stopped and unloaded instead of kept running. -/
theorem rom_drop_missing_file_stops_system :
    emuRunning runningBeforeDrop = true ∧
    emuRunning (loadEmuSystem runningBeforeDrop missingRom) = false ∧
    emuRomLoaded (loadEmuSystem runningBeforeDrop missingRom) = false := by
  decide

/-- C5: after every failed ROM load (missing file or cartridge parse
failure), the program's controller reports not running and no loaded ROM;
the failure is caught in `loadEmuSystem` and `start()` is never reached. -/
theorem failed_load_not_running (ps : ProgState) (rom : Rom)
    (h : rom.onDisk = false ∨ rom.valid = false) :
    emuRunning (loadEmuSystem ps rom) = false ∧
    emuRomLoaded (loadEmuSystem ps rom) = false := by
  have hc : (rom.onDisk && rom.valid) = false := by
    rcases h with h | h <;> simp [h]
  have hload : ∀ y : EmuSys, y.loadROM rom =
      ({ y with running := false, paused := false, romLoaded := false },
       some "ROM load failed") := by
    intro y
    simp [EmuSys.loadROM, hc]
  unfold loadEmuSystem createEmuSystem
  cases hs : ps.emuSystem <;> cases hd : rom.onDisk <;>
    simp [hload, hs, hd, EmuSys.stop, emuRunning, emuRomLoaded,
      EmuSys.isRunning]

/-- A stopped program state and an unparsable ROM, instantiating C5. -/
def invalidRom : Rom := { onDisk := true, valid := false, faulty := false }

/-- Initial program state with no system created yet, instantiating C5. -/
def freshState : ProgState :=
  { exitRequested := false, emuSystem := none
    queue := [], log := [], framesRun := 0 }

/-- Witness for C5 on a fresh state and an unparsable cartridge. -/
theorem failed_load_not_running_witness :
    emuRunning (loadEmuSystem freshState invalidRom) = false ∧
    emuRomLoaded (loadEmuSystem freshState invalidRom) = false :=
  failed_load_not_running freshState invalidRom (Or.inr rfl)
